import Mathlib

/-!
# Verification of the quota and credit accounting engine

A shallow embedding of `src/lib/quotaStore.ts` (the quota / redeem / admin
engines over a Redis-backed ledger) together with the admin grant route
(`app/api/admin/users/[userId]/credits/route.ts`).

Modelling conventions:
* The Redis store is a triple of association lists: per-user hashes
  (`freeUsed`, `paidCredits`), per-code hashes (`credits`, `maxUses`,
  `usedCount`, `active`) and per-user sets of already-redeemed codes,
  plus the process-wide one-shot initialization flag that gates the
  seed loader (`ensureInitialized` / `seedCodesFromEnv`).
* The Lua scripts read counters with `tonumber(HGET .. or '0')` and write
  them back with `HSET`; in steady state those fields hold decimal
  integers, so the store-level model uses `Int` counters.  The raw
  (string-valued) hash level, needed to reason about malformed stored
  data, is modelled separately (`toInt`, `getQuotaSnapshotFromHash`,
  `consumeGenerationCreditRaw`).
* `createdAt` / `updatedAt` are write-only audit timestamps: no logic in
  the engine ever reads them, so they are not part of the model.
* JS `number` inputs are modelled as `Int` (so `Math.floor` is the
  identity and is dropped where it appears on an already-integer value).
-/

/-- `FREE_QUOTA_LIMIT` of `quotaStore.ts`. -/
def FREE_QUOTA_LIMIT : Int := 8

/-- `QuotaSnapshot` of `quotaStore.ts`. -/
structure QuotaSnapshot where
  freeRemaining : Int
  paidRemaining : Int
  totalRemaining : Int
deriving DecidableEq, Repr

/-- The `consumedFrom` bucket: `'free' | 'paid'`. -/
inductive ConsumedFrom where
  | free
  | paid
deriving DecidableEq, Repr

/-- `ConsumptionResult` of `quotaStore.ts` (`consumedFrom?` as `Option`). -/
structure ConsumptionResult where
  allowed : Bool
  consumedFrom : Option ConsumedFrom
  quota : QuotaSnapshot
deriving DecidableEq, Repr

/-- `RedeemResult` of `quotaStore.ts` (`error?` as `Option`). -/
structure RedeemResult where
  ok : Bool
  error : Option String
  quota : QuotaSnapshot
deriving DecidableEq, Repr

/-- The per-user hash `signify:user:<id>`: the counter fields the engine
reads (`freeUsed`, `paidCredits`), as the integers the scripts maintain. -/
structure UserRecord where
  freeUsed : Int
  paidCredits : Int
deriving DecidableEq, Repr

/-- The per-code hash `signify:code:<code>`: the fields the redeem script
reads. -/
structure CodeRecord where
  credits : Int
  maxUses : Int
  usedCount : Int
  active : Bool
deriving DecidableEq, Repr

/-- The seed configuration: `REDEEM_CODES_5`, `REDEEM_CODES_10`,
`REDEEM_CODES_20` (absent environment variables are `none`). -/
structure Env where
  redeemCodes5 : Option String
  redeemCodes10 : Option String
  redeemCodes20 : Option String
deriving DecidableEq, Repr

/-- Association-list lookup (the first binding wins), modelling access to
a Redis key. -/
def lookupA {α : Type} (k : String) : List (String × α) → Option α
  | [] => none
  | (k', v) :: rest => if k = k' then some v else lookupA k rest

/-- Association-list update: overwrite the first binding of `k`, or append
a fresh one. -/
def setA {α : Type} (k : String) (v : α) : List (String × α) → List (String × α)
  | [] => [(k, v)]
  | (k', v') :: rest => if k = k' then (k, v) :: rest else (k', v') :: setA k v rest

/-- The ledger store plus the process-wide one-shot seed latch
(`initialized` in `quotaStore.ts`). -/
structure Store where
  users : List (String × UserRecord)
  codes : List (String × CodeRecord)
  userCodes : List (String × List String)
  initialized : Bool
deriving DecidableEq, Repr

/-- Reading a user hash: missing fields default to `0`
(`tonumber(HGET .. or '0')`, `toInt`). -/
def getUser (s : Store) (uid : String) : UserRecord :=
  (lookupA uid s.users).getD ⟨0, 0⟩

/-- Writing a user hash (`HSET userKey freeUsed .. paidCredits ..`). -/
def setUser (uid : String) (u : UserRecord) (s : Store) : Store :=
  { s with users := setA uid u s.users }

/-- The user's set of already-redeemed codes (missing set is empty). -/
def getUserCodes (s : Store) (uid : String) : List String :=
  (lookupA uid s.userCodes).getD []

/-- `SADD`: add a member to a set. -/
def saddList (code : String) (l : List String) : List String :=
  if code ∈ l then l else code :: l

/-- Drop leading whitespace characters (helper for JS `String.trim`). -/
def dropLeadingWs (cs : List Char) : List Char :=
  match cs with
  | [] => []
  | c :: rest => if c.isWhitespace then dropLeadingWs rest else c :: rest

/-- JS `String.prototype.trim` over the character list: drop leading and
trailing whitespace. -/
def trimList (cs : List Char) : List Char :=
  dropLeadingWs (dropLeadingWs cs.reverse).reverse

/-- `normalizeCode` of `quotaStore.ts`: `rawCode.trim().toUpperCase()`
(the JS builtins modelled over the character list). -/
def normalizeCode (rawCode : String) : String :=
  String.mk ((trimList rawCode.data).map Char.toUpper)

/-- JS `String.prototype.split(',')` over the character list. -/
def splitOnComma : List Char → List (List Char)
  | [] => [[]]
  | c :: rest =>
    if c = ',' then [] :: splitOnComma rest
    else
      match splitOnComma rest with
      | [] => [[c]]
      | g :: gs => (c :: g) :: gs

/-- `parseSeedCodeList` of `quotaStore.ts`: split a comma-separated list,
normalize each item, drop empties (an unset or empty variable gives `[]`). -/
def parseSeedCodeList (value : Option String) : List String :=
  match value with
  | none => []
  | some v =>
    if v = "" then []
    else
      (((splitOnComma v.data).map (fun item => normalizeCode (String.mk item))).filter
        (fun item => item ≠ ""))

/-- `snapshotFromValues` of `quotaStore.ts`. -/
def snapshotFromValues (freeUsed paidCredits : Int) : QuotaSnapshot :=
  let freeRemaining := max 0 (FREE_QUOTA_LIMIT - freeUsed)
  let paidRemaining := max 0 paidCredits
  { freeRemaining := freeRemaining
    paidRemaining := paidRemaining
    totalRemaining := freeRemaining + paidRemaining }

/-- One seed code of `seedCodesFromEnv`: skipped when the key exists,
otherwise created with `maxUses = 1`, `usedCount = 0`, `active = 1`. -/
def seedCode (credits : Int) (s : Store) (code : String) : Store :=
  if (lookupA code s.codes).isSome then s
  else { s with codes := setA code ⟨credits, 1, 0, true⟩ s.codes }

/-- One credit tier of `seedCodesFromEnv`. -/
def seedTier (credits : Int) (codes : List String) (s : Store) : Store :=
  codes.foldl (seedCode credits) s

/-- `seedCodesFromEnv` of `quotaStore.ts`: the tiers 5, 10, 20 in order. -/
def seedCodesFromEnv (env : Env) (s : Store) : Store :=
  seedTier 20 (parseSeedCodeList env.redeemCodes20)
    (seedTier 10 (parseSeedCodeList env.redeemCodes10)
      (seedTier 5 (parseSeedCodeList env.redeemCodes5) s))

/-- `ensureInitialized` of `quotaStore.ts`: the one-shot seed import. -/
def ensureInitialized (env : Env) (s : Store) : Store :=
  if s.initialized then s
  else { seedCodesFromEnv env s with initialized := true }

/-- `getQuotaSnapshot` of `quotaStore.ts` (store-level): runs
`ensureInitialized`, reads the user hash, derives the snapshot. -/
def getQuotaSnapshot (env : Env) (s : Store) (uid : String) :
    QuotaSnapshot × Store :=
  let s' := ensureInitialized env s
  let u := getUser s' uid
  (snapshotFromValues u.freeUsed u.paidCredits, s')

/-- `consumeGenerationCredit` of `quotaStore.ts`: the consume Lua script
(read counters, clamp the free remainder, refuse on empty balance, else
debit free before paid) plus the JS wrapper that rebuilds the snapshot
from the script's reply (note: `paidRemaining` is the raw counter here,
not clamped). -/
def consumeGenerationCredit (env : Env) (s : Store) (uid : String) :
    ConsumptionResult × Store :=
  let s' := ensureInitialized env s
  let u := getUser s' uid
  let freeRemaining := max 0 (FREE_QUOTA_LIMIT - u.freeUsed)
  if freeRemaining + u.paidCredits ≤ 0 then
    ({ allowed := false, consumedFrom := none,
       quota := ⟨freeRemaining, u.paidCredits, freeRemaining + u.paidCredits⟩ }, s')
  else if 0 < freeRemaining then
    let u' : UserRecord := { u with freeUsed := u.freeUsed + 1 }
    let fr' := max 0 (FREE_QUOTA_LIMIT - u'.freeUsed)
    ({ allowed := true, consumedFrom := some ConsumedFrom.free,
       quota := ⟨fr', u'.paidCredits, fr' + u'.paidCredits⟩ }, setUser uid u' s')
  else
    let u' : UserRecord := { u with paidCredits := u.paidCredits - 1 }
    let fr' := max 0 (FREE_QUOTA_LIMIT - u'.freeUsed)
    ({ allowed := true, consumedFrom := some ConsumedFrom.paid,
       quota := ⟨fr', u'.paidCredits, fr' + u'.paidCredits⟩ }, setUser uid u' s')

/-- `refundGenerationCredit` of `quotaStore.ts`: reverse one unit from the
given bucket (`freeUsed -= 1` clamped at 0, or `paidCredits += 1`). -/
def refundGenerationCredit (env : Env) (s : Store) (uid : String)
    (consumedFrom : ConsumedFrom) : QuotaSnapshot × Store :=
  let s' := ensureInitialized env s
  let u := getUser s' uid
  let u' : UserRecord :=
    match consumedFrom with
    | ConsumedFrom.free => { u with freeUsed := max 0 (u.freeUsed - 1) }
    | ConsumedFrom.paid => { u with paidCredits := u.paidCredits + 1 }
  let fr := max 0 (FREE_QUOTA_LIMIT - u'.freeUsed)
  (⟨fr, u'.paidCredits, fr + u'.paidCredits⟩, setUser uid u' s')

/-- The redeem Lua script of `redeemCodeForUser`, as a function of what it
reads: the code hash (if the key exists), whether the user already holds
the code (`SISMEMBER`) and the user hash.  On success it yields the
updated code hash, the updated user hash and the reply's snapshot. -/
def redeemScript (cOpt : Option CodeRecord) (member : Bool) (u : UserRecord) :
    Except String (CodeRecord × UserRecord × QuotaSnapshot) :=
  match cOpt with
  | none => Except.error "兑换码无效或已失效"
  | some c =>
    if c.active = false then Except.error "兑换码无效或已失效"
    else if member then Except.error "你已使用过该兑换码"
    else if c.maxUses ≤ c.usedCount then Except.error "兑换码已被使用"
    else
      let fr := max 0 (FREE_QUOTA_LIMIT - u.freeUsed)
      Except.ok ({ c with usedCount := c.usedCount + 1 },
                 { u with paidCredits := u.paidCredits + c.credits },
                 ⟨fr, u.paidCredits + c.credits, fr + (u.paidCredits + c.credits)⟩)

/-- `redeemCodeForUser` of `quotaStore.ts`: normalize the code, refuse an
empty one with the current snapshot, otherwise run the redeem script; on
failure return its message with the current snapshot, on success commit
the updated code hash, redemption set and user hash. -/
def redeemCodeForUser (env : Env) (s : Store) (uid rawCode : String) :
    RedeemResult × Store :=
  let s' := ensureInitialized env s
  let code := normalizeCode rawCode
  if code = "" then
    ({ ok := false, error := some "兑换码不能为空",
       quota := (getQuotaSnapshot env s' uid).1 }, (getQuotaSnapshot env s' uid).2)
  else
    match redeemScript (lookupA code s'.codes)
        (decide (code ∈ getUserCodes s' uid)) (getUser s' uid) with
    | Except.error msg =>
      ({ ok := false, error := some msg,
         quota := (getQuotaSnapshot env s' uid).1 }, (getQuotaSnapshot env s' uid).2)
    | Except.ok (c', u', q) =>
      ({ ok := true, error := none, quota := q },
       setUser uid u'
         { s' with codes := setA code c' s'.codes,
                   userCodes := setA uid (saddList code (getUserCodes s' uid)) s'.userCodes })

/-- `grantPaidCredits` of `quotaStore.ts`: clamp the grant to at least one
credit (`Math.max(1, Math.floor(credits))`) and add it to `paidCredits`. -/
def grantPaidCredits (env : Env) (s : Store) (uid : String) (credits : Int) :
    QuotaSnapshot × Store :=
  let s' := ensureInitialized env s
  let delta := max 1 credits
  let u := getUser s' uid
  let u' : UserRecord := { u with paidCredits := u.paidCredits + delta }
  let fr := max 0 (FREE_QUOTA_LIMIT - u.freeUsed)
  (⟨fr, u'.paidCredits, fr + u'.paidCredits⟩, setUser uid u' s')

/-- The admin grant route (`app/api/admin/users/[userId]/credits/route.ts`,
after auth): floor the posted credits, reject a non-positive value with a
400 `"credits 必须大于 0"` before any store access, otherwise call
`grantPaidCredits`. -/
def adminGrantCreditsRoute (env : Env) (s : Store) (uid : String)
    (credits : Int) : Except String (QuotaSnapshot × Store) :=
  if credits ≤ 0 then Except.error "credits 必须大于 0"
  else Except.ok (grantPaidCredits env s uid credits)

/-- Leading decimal digits of a character list. -/
def leadingDigits : List Char → List Char
  | [] => []
  | c :: rest => if c.isDigit then c :: leadingDigits rest else []

/-- Numeric value of a list of decimal digits. -/
def digitsVal (cs : List Char) : Nat :=
  cs.foldl (fun a c => a * 10 + (c.toNat - 48)) 0

/-- JS `Number.parseInt(s, 10)`: skip leading whitespace, take an optional
sign and the longest prefix of decimal digits (trailing characters are
ignored); `none` models `NaN`.  Modelled with arbitrary precision. -/
def parseIntJS (s : String) : Option Int :=
  match dropLeadingWs s.data with
  | '+' :: rest =>
    match leadingDigits rest with
    | [] => none
    | ds => some (Int.ofNat (digitsVal ds))
  | '-' :: rest =>
    match leadingDigits rest with
    | [] => none
    | ds => some (-(Int.ofNat (digitsVal ds)))
  | cs =>
    match leadingDigits cs with
    | [] => none
    | ds => some (Int.ofNat (digitsVal ds))

/-- `toInt` of `quotaStore.ts` with its default fallback `0`:
`Number.parseInt(String(value ?? ''), 10)`, `NaN` mapped to the fallback.
A missing hash field (`null` from `hmGet`) becomes the empty string. -/
def toInt (value : Option String) : Int :=
  (parseIntJS (value.getD "")).getD 0

/-- The read path of `getQuotaSnapshot` at the raw hash level
(`quotaStore.ts` lines 152-158): `hmGet` hands back the raw `freeUsed` and
`paidCredits` field values (absent fields as `none`), each is parsed by
`toInt`, and the snapshot is derived by `snapshotFromValues`. -/
def getQuotaSnapshotFromHash (freeUsedRaw paidCreditsRaw : Option String) :
    QuotaSnapshot :=
  snapshotFromValues (toInt freeUsedRaw) (toInt paidCreditsRaw)

/-- Lua `tonumber` restricted to its decimal-integer fragment: trim
whitespace, optional sign, all remaining characters must be digits,
else `nil` (`none`).  (Fractional and hexadecimal literals are outside
the fragment the engine ever stores.) -/
def luaToNumber (s : String) : Option Int :=
  match trimList s.data with
  | [] => none
  | '+' :: rest =>
    if rest ≠ [] ∧ rest.all Char.isDigit then some (Int.ofNat (digitsVal rest)) else none
  | '-' :: rest =>
    if rest ≠ [] ∧ rest.all Char.isDigit then some (-(Int.ofNat (digitsVal rest))) else none
  | cs =>
    if cs.all Char.isDigit then some (Int.ofNat (digitsVal cs)) else none

/-- `tonumber(redis.call('HGET', ..) or '0')`: a missing field (`HGET`
returns false) falls back to the string `'0'`; a present field goes
through `tonumber`, which yields `nil` on a non-numeric value. -/
def luaNumField (value : Option String) : Option Int :=
  match value with
  | none => some 0
  | some s => luaToNumber s

/-- `consumeGenerationCredit` at the raw hash level: the consume script
reads the two counter fields with `tonumber(HGET .. or '0')` and then does
arithmetic on them, so a stored non-numeric value makes the script throw
(`Except.error`, as the Lua interpreter does on nil arithmetic).  On
success it returns the JS-level result and, when a debit happened, the
written-back field strings. -/
def consumeGenerationCreditRaw (freeUsedRaw paidCreditsRaw : Option String) :
    Except String (ConsumptionResult × Option (String × String)) :=
  match luaNumField freeUsedRaw, luaNumField paidCreditsRaw with
  | some freeUsed, some paidCredits =>
    let freeRemaining := max 0 (FREE_QUOTA_LIMIT - freeUsed)
    if freeRemaining + paidCredits ≤ 0 then
      Except.ok ({ allowed := false, consumedFrom := none,
                   quota := ⟨freeRemaining, paidCredits, freeRemaining + paidCredits⟩ },
                 none)
    else if 0 < freeRemaining then
      let fr' := max 0 (FREE_QUOTA_LIMIT - (freeUsed + 1))
      Except.ok ({ allowed := true, consumedFrom := some ConsumedFrom.free,
                   quota := ⟨fr', paidCredits, fr' + paidCredits⟩ },
                 some (toString (freeUsed + 1), toString paidCredits))
    else
      Except.ok ({ allowed := true, consumedFrom := some ConsumedFrom.paid,
                   quota := ⟨freeRemaining, paidCredits - 1, freeRemaining + (paidCredits - 1)⟩ },
                 some (toString freeUsed, toString (paidCredits - 1)))
  | _, _ => Except.error "attempt to perform arithmetic on a nil value"

/-- The balance-mutating user-facing operations of the engine, as listed
in the spec: `consume`, `refund`, `redeemApply`, `grantCredits`. -/
inductive Op where
  | consume (uid : String)
  | refund (uid : String) (consumedFrom : ConsumedFrom)
  | redeem (uid : String) (rawCode : String)
  | grant (uid : String) (credits : Int)

/-- The store after one operation. -/
def applyOp (env : Env) (s : Store) : Op → Store
  | Op.consume uid => (consumeGenerationCredit env s uid).2
  | Op.refund uid b => (refundGenerationCredit env s uid b).2
  | Op.redeem uid raw => (redeemCodeForUser env s uid raw).2
  | Op.grant uid credits => (grantPaidCredits env s uid credits).2

/-- The store after a sequence of operations. -/
def runOps (env : Env) (ops : List Op) (s : Store) : Store :=
  ops.foldl (applyOp env) s

/-- The all-zero default: an empty store on a fresh process. -/
def initStore : Store := ⟨[], [], [], false⟩

/-- The documented per-user invariant: `freeUsed` stays within
`[0, FREE_QUOTA_LIMIT]` and `paidCredits` never goes negative. -/
def UserOk (u : UserRecord) : Prop :=
  0 ≤ u.freeUsed ∧ u.freeUsed ≤ FREE_QUOTA_LIMIT ∧ 0 ≤ u.paidCredits

/-- The documented per-code invariant: non-negative credit grant and
`usedCount ≤ maxUses`. -/
def CodeOk (c : CodeRecord) : Prop :=
  0 ≤ c.credits ∧ c.usedCount ≤ c.maxUses

/-- Both invariants over the whole store. -/
def StoreOk (s : Store) : Prop :=
  (∀ uid, UserOk (getUser s uid)) ∧
  (∀ code c, lookupA code s.codes = some c → CodeOk c)

theorem lookupA_setA {α : Type} (k j : String) (v : α) (l : List (String × α)) :
    lookupA k (setA j v l) = if k = j then some v else lookupA k l := by
  induction l with
  | nil => by_cases hk : k = j <;> simp [setA, lookupA, hk]
  | cons hd tl ih =>
    obtain ⟨k', v'⟩ := hd
    by_cases hj : j = k'
    · subst hj
      by_cases hk : k = j <;> simp [setA, lookupA, hk]
    · by_cases hk : k = k'
      · subst hk
        have hkj : ¬k = j := fun h => hj h.symm
        simp [setA, hj, lookupA, hkj]
      · simp [setA, hj, lookupA, hk, ih]

theorem lookupA_setA_self {α : Type} (k : String) (v : α) (l : List (String × α)) :
    lookupA k (setA k v l) = some v := by
  simp [lookupA_setA]

theorem lookupA_setA_ne {α : Type} {k j : String} (h : k ≠ j) (v : α)
    (l : List (String × α)) : lookupA k (setA j v l) = lookupA k l := by
  simp [lookupA_setA, h]

theorem getUser_setUser (s : Store) (uid uid' : String) (u : UserRecord) :
    getUser (setUser uid u s) uid' = if uid' = uid then u else getUser s uid' := by
  by_cases h : uid' = uid <;> simp [getUser, setUser, lookupA_setA, h]

theorem setUser_codes (uid : String) (u : UserRecord) (s : Store) :
    (setUser uid u s).codes = s.codes := rfl

theorem setUser_userCodes (uid : String) (u : UserRecord) (s : Store) :
    (setUser uid u s).userCodes = s.userCodes := rfl

theorem setUser_flag (uid : String) (u : UserRecord) (s : Store) :
    (setUser uid u s).initialized = s.initialized := rfl

theorem seedCode_users (cr : Int) (s : Store) (c : String) :
    (seedCode cr s c).users = s.users := by
  unfold seedCode; split <;> rfl

theorem seedCode_userCodes (cr : Int) (s : Store) (c : String) :
    (seedCode cr s c).userCodes = s.userCodes := by
  unfold seedCode; split <;> rfl

theorem seedCode_flag (cr : Int) (s : Store) (c : String) :
    (seedCode cr s c).initialized = s.initialized := by
  unfold seedCode; split <;> rfl

theorem seedTier_cons (cr : Int) (c : String) (l : List String) (s : Store) :
    seedTier cr (c :: l) s = seedTier cr l (seedCode cr s c) := rfl

theorem seedTier_users (cr : Int) :
    ∀ (l : List String) (s : Store), (seedTier cr l s).users = s.users := by
  intro l
  induction l with
  | nil => intro s; rfl
  | cons c l ih => intro s; rw [seedTier_cons, ih, seedCode_users]

theorem seedTier_userCodes (cr : Int) :
    ∀ (l : List String) (s : Store), (seedTier cr l s).userCodes = s.userCodes := by
  intro l
  induction l with
  | nil => intro s; rfl
  | cons c l ih => intro s; rw [seedTier_cons, ih, seedCode_userCodes]

theorem seedTier_flag (cr : Int) :
    ∀ (l : List String) (s : Store), (seedTier cr l s).initialized = s.initialized := by
  intro l
  induction l with
  | nil => intro s; rfl
  | cons c l ih => intro s; rw [seedTier_cons, ih, seedCode_flag]

theorem seedCodesFromEnv_users (env : Env) (s : Store) :
    (seedCodesFromEnv env s).users = s.users := by
  unfold seedCodesFromEnv; rw [seedTier_users, seedTier_users, seedTier_users]

theorem seedCodesFromEnv_userCodes (env : Env) (s : Store) :
    (seedCodesFromEnv env s).userCodes = s.userCodes := by
  unfold seedCodesFromEnv; rw [seedTier_userCodes, seedTier_userCodes, seedTier_userCodes]

theorem ensureInitialized_users (env : Env) (s : Store) :
    (ensureInitialized env s).users = s.users := by
  unfold ensureInitialized
  split
  · rfl
  · show (seedCodesFromEnv env s).users = s.users
    exact seedCodesFromEnv_users env s

theorem ensureInitialized_userCodes (env : Env) (s : Store) :
    (ensureInitialized env s).userCodes = s.userCodes := by
  unfold ensureInitialized
  split
  · rfl
  · show (seedCodesFromEnv env s).userCodes = s.userCodes
    exact seedCodesFromEnv_userCodes env s

theorem getUser_ensureInitialized (env : Env) (s : Store) (uid : String) :
    getUser (ensureInitialized env s) uid = getUser s uid := by
  simp [getUser, ensureInitialized_users]

theorem getUserCodes_ensureInitialized (env : Env) (s : Store) (uid : String) :
    getUserCodes (ensureInitialized env s) uid = getUserCodes s uid := by
  simp [getUserCodes, ensureInitialized_userCodes]

theorem ensureInitialized_flag (env : Env) (s : Store) :
    (ensureInitialized env s).initialized = true := by
  unfold ensureInitialized
  split
  · assumption
  · rfl

theorem ensureInitialized_of_true {s : Store} (env : Env)
    (h : s.initialized = true) : ensureInitialized env s = s := by
  unfold ensureInitialized; simp [h]

theorem ensureInitialized_idem (env : Env) (s : Store) :
    ensureInitialized env (ensureInitialized env s) = ensureInitialized env s :=
  ensureInitialized_of_true env (ensureInitialized_flag env s)

theorem redeemScript_none (member : Bool) (u : UserRecord) :
    redeemScript none member u = Except.error "兑换码无效或已失效" := rfl

theorem redeemScript_inactive {c : CodeRecord} (ha : c.active = false)
    (member : Bool) (u : UserRecord) :
    redeemScript (some c) member u = Except.error "兑换码无效或已失效" := by
  unfold redeemScript; simp [ha]

theorem redeemScript_member {c : CodeRecord} (ha : c.active = true)
    (u : UserRecord) :
    redeemScript (some c) true u = Except.error "你已使用过该兑换码" := by
  unfold redeemScript; simp [ha]

theorem redeemScript_exhausted {c : CodeRecord} (ha : c.active = true)
    (hused : c.maxUses ≤ c.usedCount) (u : UserRecord) :
    redeemScript (some c) false u = Except.error "兑换码已被使用" := by
  unfold redeemScript; simp [ha, hused]

theorem redeemScript_succ {c : CodeRecord} (ha : c.active = true)
    (hused : c.usedCount < c.maxUses) (u : UserRecord) :
    redeemScript (some c) false u =
      Except.ok ({ c with usedCount := c.usedCount + 1 },
                 { u with paidCredits := u.paidCredits + c.credits },
                 ⟨max 0 (FREE_QUOTA_LIMIT - u.freeUsed), u.paidCredits + c.credits,
                  max 0 (FREE_QUOTA_LIMIT - u.freeUsed) + (u.paidCredits + c.credits)⟩) := by
  unfold redeemScript; simp [ha, not_le.mpr hused]

theorem redeemScript_ok_inv {cOpt : Option CodeRecord} {member : Bool}
    {u : UserRecord} {c' : CodeRecord} {u' : UserRecord} {q : QuotaSnapshot}
    (h : redeemScript cOpt member u = Except.ok (c', u', q)) :
    ∃ c, cOpt = some c ∧ c.active = true ∧ member = false ∧
      c.usedCount < c.maxUses ∧
      c' = { c with usedCount := c.usedCount + 1 } ∧
      u' = { u with paidCredits := u.paidCredits + c.credits } ∧
      q = ⟨max 0 (FREE_QUOTA_LIMIT - u.freeUsed), u.paidCredits + c.credits,
           max 0 (FREE_QUOTA_LIMIT - u.freeUsed) + (u.paidCredits + c.credits)⟩ := by
  cases cOpt with
  | none => simp [redeemScript] at h
  | some c =>
    refine ⟨c, rfl, ?_⟩
    have hsome : redeemScript (some c) member u =
        if c.active = false then Except.error "兑换码无效或已失效"
        else if member then Except.error "你已使用过该兑换码"
        else if c.maxUses ≤ c.usedCount then Except.error "兑换码已被使用"
        else
          Except.ok ({ c with usedCount := c.usedCount + 1 },
                     { u with paidCredits := u.paidCredits + c.credits },
                     ⟨max 0 (FREE_QUOTA_LIMIT - u.freeUsed), u.paidCredits + c.credits,
                      max 0 (FREE_QUOTA_LIMIT - u.freeUsed) +
                        (u.paidCredits + c.credits)⟩) := rfl
    rw [hsome] at h
    by_cases ha : c.active = false
    · simp [ha] at h
    · rw [if_neg ha] at h
      cases member with
      | true => simp at h
      | false =>
        rw [if_neg (fun hh => Bool.false_ne_true hh)] at h
        by_cases hm : c.maxUses ≤ c.usedCount
        · simp [hm] at h
        · rw [if_neg hm] at h
          simp only [Except.ok.injEq, Prod.mk.injEq] at h
          refine ⟨by simpa using ha, rfl, by omega, h.1.symm, h.2.1.symm, h.2.2.symm⟩

theorem getQuotaSnapshot_of_true {s : Store} (env : Env) (uid : String)
    (h : s.initialized = true) :
    getQuotaSnapshot env s uid =
      (snapshotFromValues (getUser s uid).freeUsed (getUser s uid).paidCredits, s) := by
  unfold getQuotaSnapshot
  rw [ensureInitialized_of_true env h]

theorem redeem_empty {s : Store} (env : Env) (uid rawCode : String)
    (hs : s.initialized = true) (hn : normalizeCode rawCode = "") :
    redeemCodeForUser env s uid rawCode =
      ({ ok := false, error := some "兑换码不能为空",
         quota := snapshotFromValues (getUser s uid).freeUsed (getUser s uid).paidCredits },
       s) := by
  unfold redeemCodeForUser
  rw [ensureInitialized_of_true env hs, hn]
  simp [getQuotaSnapshot_of_true env uid hs]

theorem redeem_fail {s : Store} {msg : String} (env : Env) (uid rawCode code : String)
    (hs : s.initialized = true) (hn : normalizeCode rawCode = code) (hne : code ≠ "")
    (hscript : redeemScript (lookupA code s.codes)
        (decide (code ∈ getUserCodes s uid)) (getUser s uid) = Except.error msg) :
    redeemCodeForUser env s uid rawCode =
      ({ ok := false, error := some msg,
         quota := snapshotFromValues (getUser s uid).freeUsed (getUser s uid).paidCredits },
       s) := by
  unfold redeemCodeForUser
  rw [ensureInitialized_of_true env hs, hn, if_neg hne, hscript]
  simp [getQuotaSnapshot_of_true env uid hs]

theorem redeem_success {s : Store} {c : CodeRecord} (env : Env)
    (uid rawCode code : String)
    (hs : s.initialized = true) (hn : normalizeCode rawCode = code) (hne : code ≠ "")
    (hc : lookupA code s.codes = some c) (ha : c.active = true)
    (hmem : code ∉ getUserCodes s uid) (hused : c.usedCount < c.maxUses) :
    redeemCodeForUser env s uid rawCode =
      ({ ok := true, error := none,
         quota := ⟨max 0 (FREE_QUOTA_LIMIT - (getUser s uid).freeUsed),
                   (getUser s uid).paidCredits + c.credits,
                   max 0 (FREE_QUOTA_LIMIT - (getUser s uid).freeUsed) +
                     ((getUser s uid).paidCredits + c.credits)⟩ },
       setUser uid
         { getUser s uid with
             paidCredits := (getUser s uid).paidCredits + c.credits }
         { s with
             codes := setA code { c with usedCount := c.usedCount + 1 } s.codes,
             userCodes := setA uid (saddList code (getUserCodes s uid)) s.userCodes }) := by
  unfold redeemCodeForUser
  rw [ensureInitialized_of_true env hs, hn, if_neg hne, hc, decide_eq_false hmem,
    redeemScript_succ ha hused]

theorem storeOk_initStore : StoreOk initStore := by
  constructor
  · intro uid
    simp [getUser, initStore, lookupA, UserOk, FREE_QUOTA_LIMIT]
  · intro code c h
    simp [initStore, lookupA] at h

theorem storeOk_setUser {s : Store} {u : UserRecord} (uid : String)
    (h : StoreOk s) (hu : UserOk u) : StoreOk (setUser uid u s) := by
  constructor
  · intro uid'
    rw [getUser_setUser]
    split
    · exact hu
    · exact h.1 uid'
  · intro code c hl
    rw [setUser_codes] at hl
    exact h.2 code c hl

theorem storeOk_seedCode {s : Store} {cr : Int} (c0 : String)
    (hcr : 0 ≤ cr) (h : StoreOk s) : StoreOk (seedCode cr s c0) := by
  constructor
  · intro uid
    simp only [getUser, seedCode_users]
    exact h.1 uid
  · intro code c hl
    unfold seedCode at hl
    split at hl
    · exact h.2 code c hl
    · simp only at hl
      rw [lookupA_setA] at hl
      split at hl
      · cases hl
        exact ⟨hcr, by norm_num⟩
      · exact h.2 code c hl

theorem storeOk_seedTier {cr : Int} (hcr : 0 ≤ cr) :
    ∀ (l : List String) (s : Store), StoreOk s → StoreOk (seedTier cr l s) := by
  intro l
  induction l with
  | nil => intro s h; exact h
  | cons c l ih =>
    intro s h
    rw [seedTier_cons]
    exact ih _ (storeOk_seedCode c hcr h)

theorem storeOk_ensureInitialized {s : Store} (env : Env) (h : StoreOk s) :
    StoreOk (ensureInitialized env s) := by
  unfold ensureInitialized
  split
  · exact h
  · have hseed : StoreOk (seedCodesFromEnv env s) := by
      unfold seedCodesFromEnv
      exact storeOk_seedTier (by norm_num) _ _
        (storeOk_seedTier (by norm_num) _ _
          (storeOk_seedTier (by norm_num) _ _ h))
    constructor
    · intro uid
      exact hseed.1 uid
    · intro code c hl
      exact hseed.2 code c hl

theorem storeOk_consume {s : Store} (env : Env) (uid : String) (h : StoreOk s) :
    StoreOk (consumeGenerationCredit env s uid).2 := by
  have h' := storeOk_ensureInitialized env h
  have hu := h'.1 uid
  obtain ⟨h0, h8, hp⟩ := hu
  simp only [consumeGenerationCredit]
  split
  · exact h'
  · split
    · next hpos =>
      apply storeOk_setUser uid h'
      exact ⟨by dsimp only; omega, by dsimp only; omega, hp⟩
    · next hempty hpos =>
      apply storeOk_setUser uid h'
      refine ⟨h0, h8, ?_⟩
      dsimp only
      omega

theorem storeOk_refund {s : Store} (env : Env) (uid : String) (b : ConsumedFrom)
    (h : StoreOk s) : StoreOk (refundGenerationCredit env s uid b).2 := by
  have h' := storeOk_ensureInitialized env h
  obtain ⟨h0, h8, hp⟩ := h'.1 uid
  simp only [refundGenerationCredit]
  apply storeOk_setUser uid h'
  cases b
  · exact ⟨by dsimp only; omega, by dsimp only; omega, hp⟩
  · exact ⟨h0, h8, by dsimp only; omega⟩

theorem storeOk_grant {s : Store} (env : Env) (uid : String) (credits : Int)
    (h : StoreOk s) : StoreOk (grantPaidCredits env s uid credits).2 := by
  have h' := storeOk_ensureInitialized env h
  obtain ⟨h0, h8, hp⟩ := h'.1 uid
  simp only [grantPaidCredits]
  apply storeOk_setUser uid h'
  exact ⟨h0, h8, by dsimp only; omega⟩

theorem mem_saddList_self (code : String) (l : List String) :
    code ∈ saddList code l := by
  unfold saddList
  split
  · assumption
  · exact List.mem_cons_self code l

theorem mem_saddList {a : String} (c : String) {l : List String} (h : a ∈ l) :
    a ∈ saddList c l := by
  unfold saddList
  split
  · exact h
  · exact List.mem_cons_of_mem c h

theorem redeem_userCodes_mono {s : Store} {a uid : String} (env : Env)
    (uid' raw : String) (h : a ∈ getUserCodes s uid) :
    a ∈ getUserCodes (redeemCodeForUser env s uid' raw).2 uid := by
  have hbase : ∀ t : Store, t.userCodes = s.userCodes → a ∈ getUserCodes t uid := by
    intro t ht
    simpa [getUserCodes, ht] using h
  simp only [redeemCodeForUser]
  split
  · exact hbase _ (by
      simp only [getQuotaSnapshot]
      rw [ensureInitialized_idem, ensureInitialized_userCodes])
  · split
    · exact hbase _ (by
        simp only [getQuotaSnapshot]
        rw [ensureInitialized_idem, ensureInitialized_userCodes])
    · by_cases huid : uid = uid'
      · subst huid
        simp only [getUserCodes, setUser_userCodes, lookupA_setA_self, Option.getD_some]
        apply mem_saddList
        rw [ensureInitialized_userCodes]
        exact h
      · simp only [getUserCodes, setUser_userCodes, lookupA_setA_ne huid]
        rw [ensureInitialized_userCodes]
        exact h

theorem consume_userCodes (env : Env) (s : Store) (uid : String) :
    (consumeGenerationCredit env s uid).2.userCodes = s.userCodes := by
  simp only [consumeGenerationCredit]
  split
  · exact ensureInitialized_userCodes env s
  · split <;> rw [setUser_userCodes, ensureInitialized_userCodes]

theorem refund_userCodes (env : Env) (s : Store) (uid : String) (b : ConsumedFrom) :
    (refundGenerationCredit env s uid b).2.userCodes = s.userCodes := by
  simp only [refundGenerationCredit]
  rw [setUser_userCodes, ensureInitialized_userCodes]

theorem grant_userCodes (env : Env) (s : Store) (uid : String) (credits : Int) :
    (grantPaidCredits env s uid credits).2.userCodes = s.userCodes := by
  simp only [grantPaidCredits]
  rw [setUser_userCodes, ensureInitialized_userCodes]

theorem storeOk_redeem {s : Store} (env : Env) (uid raw : String) (h : StoreOk s) :
    StoreOk (redeemCodeForUser env s uid raw).2 := by
  have h' := storeOk_ensureInitialized env h
  simp only [redeemCodeForUser]
  split
  · simp only [getQuotaSnapshot]
    rw [ensureInitialized_idem]
    exact h'
  · split
    · simp only [getQuotaSnapshot]
      rw [ensureInitialized_idem]
      exact h'
    · next c' u' q hok =>
      have hinv := redeemScript_ok_inv hok
      obtain ⟨c, hc, hactive, hmem, hlt, hc', hu', hq⟩ := hinv
      obtain ⟨h0, h8, hp⟩ := h'.1 uid
      obtain ⟨hcr, hcu⟩ := h'.2 _ _ hc
      subst hu'
      apply storeOk_setUser uid
      · constructor
        · intro uid2
          simp only [getUser]
          exact h'.1 uid2
        · intro code2 c2 hl
          simp only at hl
          rw [lookupA_setA] at hl
          split at hl
          · cases hl
            subst hc'
            exact ⟨hcr, by dsimp only; omega⟩
          · exact h'.2 code2 c2 hl
      · exact ⟨h0, h8, by dsimp only; omega⟩

theorem storeOk_applyOp {s : Store} (env : Env) (op : Op) (h : StoreOk s) :
    StoreOk (applyOp env s op) := by
  cases op with
  | consume uid => exact storeOk_consume env uid h
  | refund uid b => exact storeOk_refund env uid b h
  | redeem uid raw => exact storeOk_redeem env uid raw h
  | grant uid credits => exact storeOk_grant env uid credits h

theorem storeOk_runOps (env : Env) :
    ∀ (ops : List Op) (s : Store), StoreOk s → StoreOk (runOps env ops s) := by
  intro ops
  induction ops with
  | nil => intro s h; exact h
  | cons op ops ih =>
    intro s h
    rw [runOps, List.foldl_cons]
    exact ih _ (storeOk_applyOp env op h)

theorem userCodes_mono_applyOp {s : Store} {a uid : String} (env : Env) (op : Op)
    (h : a ∈ getUserCodes s uid) : a ∈ getUserCodes (applyOp env s op) uid := by
  cases op with
  | consume uid' => simpa [applyOp, getUserCodes, consume_userCodes] using h
  | refund uid' b => simpa [applyOp, getUserCodes, refund_userCodes] using h
  | redeem uid' raw => exact redeem_userCodes_mono env uid' raw h
  | grant uid' credits => simpa [applyOp, getUserCodes, grant_userCodes] using h

theorem userCodes_mono_runOps {a uid : String} (env : Env) :
    ∀ (ops : List Op) (s : Store), a ∈ getUserCodes s uid →
      a ∈ getUserCodes (runOps env ops s) uid := by
  intro ops
  induction ops with
  | nil => intro s h; exact h
  | cons op ops ih =>
    intro s h
    rw [runOps, List.foldl_cons]
    exact ih _ (userCodes_mono_applyOp env op h)

/-- A sequence of `redeemApply` attempts for one fixed (already
normalized) code, one per user in the list, collecting each attempt's
`ok` flag. -/
def redeemAll (env : Env) (code : String) : List String → Store → List Bool × Store
  | [], s => ([], s)
  | uid :: rest, s =>
    let p := redeemCodeForUser env s uid code
    let q := redeemAll env code rest p.2
    (p.1.ok :: q.1, q.2)

theorem redeemAll_cons (env : Env) (code uid : String) (rest : List String)
    (s : Store) :
    redeemAll env code (uid :: rest) s =
      ((redeemCodeForUser env s uid code).1.ok ::
         (redeemAll env code rest (redeemCodeForUser env s uid code).2).1,
       (redeemAll env code rest (redeemCodeForUser env s uid code).2).2) := rfl

theorem redeemAll_count (env : Env) (code : String) (cr : Int) (m : Nat) :
    ∀ (uids : List String) (k : Nat) (s : Store),
      s.initialized = true → normalizeCode code = code → code ≠ "" →
      lookupA code s.codes = some ⟨cr, (m : Int), (k : Int), true⟩ →
      List.Nodup uids → (∀ uid ∈ uids, code ∉ getUserCodes s uid) →
      uids.length + k = m + 1 → k ≤ m →
      (redeemAll env code uids s).1 = List.replicate (m - k) true ++ [false] := by
  intro uids
  induction uids with
  | nil =>
    intro k s _ _ _ _ _ _ hlen hk
    simp only [List.length_nil] at hlen
    omega
  | cons uid rest ih =>
    intro k s hs hnorm hne hcode hnodup hfresh hlen hk
    have hmemu : code ∉ getUserCodes s uid := hfresh uid (List.mem_cons_self uid rest)
    rcases Nat.lt_or_ge k m with hkm | hkm
    · have hlt : ((⟨cr, (m : Int), (k : Int), true⟩ : CodeRecord)).usedCount <
          ((⟨cr, (m : Int), (k : Int), true⟩ : CodeRecord)).maxUses := by
        dsimp only
        exact_mod_cast hkm
      have hsucc := redeem_success env uid code code hs hnorm hne hcode rfl hmemu hlt
      rw [redeemAll_cons, hsucc]
      have hs2 : (setUser uid
          { getUser s uid with
              paidCredits := (getUser s uid).paidCredits +
                ((⟨cr, (m : Int), (k : Int), true⟩ : CodeRecord)).credits }
          { s with
              codes := setA code
                { (⟨cr, (m : Int), (k : Int), true⟩ : CodeRecord) with
                    usedCount :=
                      ((⟨cr, (m : Int), (k : Int), true⟩ : CodeRecord)).usedCount + 1 }
                s.codes,
              userCodes :=
                setA uid (saddList code (getUserCodes s uid)) s.userCodes }).initialized
          = true := by
        rw [setUser_flag]
        exact hs
      have hcode2 : lookupA code (setUser uid
          { getUser s uid with
              paidCredits := (getUser s uid).paidCredits +
                ((⟨cr, (m : Int), (k : Int), true⟩ : CodeRecord)).credits }
          { s with
              codes := setA code
                { (⟨cr, (m : Int), (k : Int), true⟩ : CodeRecord) with
                    usedCount :=
                      ((⟨cr, (m : Int), (k : Int), true⟩ : CodeRecord)).usedCount + 1 }
                s.codes,
              userCodes :=
                setA uid (saddList code (getUserCodes s uid)) s.userCodes }).codes
          = some ⟨cr, (m : Int), ((k + 1 : Nat) : Int), true⟩ := by
        rw [setUser_codes]
        dsimp only
        rw [lookupA_setA_self]
        congr 1
      have hnodup' := List.nodup_cons.mp hnodup
      have hfresh2 : ∀ uid' ∈ rest, code ∉ getUserCodes (setUser uid
          { getUser s uid with
              paidCredits := (getUser s uid).paidCredits +
                ((⟨cr, (m : Int), (k : Int), true⟩ : CodeRecord)).credits }
          { s with
              codes := setA code
                { (⟨cr, (m : Int), (k : Int), true⟩ : CodeRecord) with
                    usedCount :=
                      ((⟨cr, (m : Int), (k : Int), true⟩ : CodeRecord)).usedCount + 1 }
                s.codes,
              userCodes :=
                setA uid (saddList code (getUserCodes s uid)) s.userCodes }) uid' := by
        intro uid' hmemr
        have hne' : uid' ≠ uid := fun h => hnodup'.1 (h ▸ hmemr)
        simp only [getUserCodes, setUser_userCodes, lookupA_setA_ne hne']
        exact hfresh uid' (List.mem_cons_of_mem uid hmemr)
      have hlen2 : rest.length + (k + 1) = m + 1 := by
        simp only [List.length_cons] at hlen
        omega
      have hrec := ih (k + 1) _ hs2 hnorm hne hcode2 hnodup'.2 hfresh2 hlen2 hkm
      rw [hrec]
      have hmk : m - k = (m - (k + 1)) + 1 := by omega
      rw [hmk, List.replicate_succ]
      rfl
    · have hkm' : k = m := Nat.le_antisymm hk hkm
      have hrest : rest = [] := by
        have : rest.length = 0 := by
          simp only [List.length_cons] at hlen
          omega
        exact List.length_eq_zero.mp this
      subst hrest
      have hused : ((⟨cr, (m : Int), (k : Int), true⟩ : CodeRecord)).maxUses ≤
          ((⟨cr, (m : Int), (k : Int), true⟩ : CodeRecord)).usedCount := by
        dsimp only
        exact_mod_cast hkm
      have hfail := redeem_fail env uid code code hs hnorm hne (by
        rw [hcode, decide_eq_false hmemu]
        exact redeemScript_exhausted rfl hused _)
      rw [redeemAll_cons, hfail]
      have hmk : m - k = 0 := by omega
      rw [hmk]
      rfl

/-- An empty seed configuration (no `REDEEM_CODES_*` variables set). -/
def env0 : Env := ⟨none, none, none⟩

/-- C1: for every user whose current snapshot has
`freeRemaining + paidCredits > 0`, `consume` returns `allowed = true` and
debits the free allowance first: if `freeRemaining > 0` it increments
`freeUsed` by one and reports `consumedFrom = "free"`; otherwise it
decrements `paidCredits` by one and reports `consumedFrom = "paid"`. -/
theorem claim1_consume_prefers_free (env : Env) (s : Store) (uid : String)
    (h : 0 < max 0 (FREE_QUOTA_LIMIT - (getUser s uid).freeUsed) +
           (getUser s uid).paidCredits) :
    (consumeGenerationCredit env s uid).1.allowed = true ∧
    (if 0 < max 0 (FREE_QUOTA_LIMIT - (getUser s uid).freeUsed) then
       (consumeGenerationCredit env s uid).1.consumedFrom = some ConsumedFrom.free ∧
       getUser (consumeGenerationCredit env s uid).2 uid =
         { getUser s uid with freeUsed := (getUser s uid).freeUsed + 1 }
     else
       (consumeGenerationCredit env s uid).1.consumedFrom = some ConsumedFrom.paid ∧
       getUser (consumeGenerationCredit env s uid).2 uid =
         { getUser s uid with paidCredits := (getUser s uid).paidCredits - 1 }) := by
  have hg := getUser_ensureInitialized env s uid
  by_cases hf : 0 < max 0 (FREE_QUOTA_LIMIT - (getUser s uid).freeUsed)
  · simp only [consumeGenerationCredit, hg, if_neg (not_le.mpr h), if_pos hf]
    refine ⟨by trivial, by trivial, by simp [getUser_setUser, hg]⟩
  · simp only [consumeGenerationCredit, hg, if_neg (not_le.mpr h), if_neg hf]
    refine ⟨by trivial, by trivial, by simp [getUser_setUser, hg]⟩

/-- C1 witness: the claim's concrete instance `freeUsed = 7`,
`paidCredits = 3`: one consume yields `consumedFrom = "free"`,
`freeRemaining = 0`, `paidRemaining = 3`. -/
theorem claim1_witness :
    (consumeGenerationCredit env0 (⟨[("u", ⟨7, 3⟩)], [], [], true⟩ : Store) "u").1.consumedFrom
        = some ConsumedFrom.free ∧
    (consumeGenerationCredit env0 (⟨[("u", ⟨7, 3⟩)], [], [], true⟩ : Store) "u").1.quota
        = ⟨0, 3, 3⟩ := by
  have h := claim1_consume_prefers_free env0 (⟨[("u", ⟨7, 3⟩)], [], [], true⟩ : Store) "u"
    (by decide)
  rw [if_pos (by decide)] at h
  exact ⟨h.2.1, by decide⟩

/-- C2: starting from the all-zero default, every sequence of `consume`,
`refund`, `redeemApply` and `grantCredits` operations keeps every user's
stored counters in range: `0 ≤ freeUsed ≤ FREE_QUOTA_LIMIT` and
`0 ≤ paidCredits`. -/
theorem claim2_counters_in_range (env : Env) (ops : List Op) (uid : String) :
    0 ≤ (getUser (runOps env ops initStore) uid).freeUsed ∧
    (getUser (runOps env ops initStore) uid).freeUsed ≤ FREE_QUOTA_LIMIT ∧
    0 ≤ (getUser (runOps env ops initStore) uid).paidCredits :=
  (storeOk_runOps env ops initStore storeOk_initStore).1 uid

/-- C3: when `freeRemaining + paidCredits ≤ 0` (on an initialized process
and a state satisfying the non-negativity invariant), `consume` returns
`allowed = false` with `consumedFrom` absent, leaves the store untouched
and hands back the current snapshot of that unchanged state. -/
theorem claim3_consume_denied (env : Env) (s : Store) (uid : String)
    (hinit : s.initialized = true)
    (hp : 0 ≤ (getUser s uid).paidCredits)
    (h : max 0 (FREE_QUOTA_LIMIT - (getUser s uid).freeUsed) +
           (getUser s uid).paidCredits ≤ 0) :
    consumeGenerationCredit env s uid =
      ({ allowed := false, consumedFrom := none,
         quota := (getQuotaSnapshot env s uid).1 }, s) := by
  have hp0 : (getUser s uid).paidCredits = 0 := by omega
  have hf0 : max 0 (FREE_QUOTA_LIMIT - (getUser s uid).freeUsed) = 0 := by omega
  simp only [consumeGenerationCredit, ensureInitialized_of_true env hinit,
    getQuotaSnapshot_of_true env uid hinit]
  rw [if_pos h]
  simp [snapshotFromValues, hp0, hf0]

/-- C3 witness: a user with the whole free quota used and no paid
credits is denied and the state is unchanged. -/
theorem claim3_witness :
    (consumeGenerationCredit env0 (⟨[("u", ⟨8, 0⟩)], [], [], true⟩ : Store) "u").1.allowed
        = false ∧
    (consumeGenerationCredit env0 (⟨[("u", ⟨8, 0⟩)], [], [], true⟩ : Store) "u").2
        = (⟨[("u", ⟨8, 0⟩)], [], [], true⟩ : Store) := by
  have h := claim3_consume_denied env0 (⟨[("u", ⟨8, 0⟩)], [], [], true⟩ : Store) "u"
    rfl (by decide) (by decide)
  exact ⟨by rw [h], by rw [h]⟩

/-- C4: whenever `consume` succeeds with bucket `b`, immediately calling
`refund(b)` restores the exact pre-consume snapshot (and the stored
counters themselves), on any state satisfying the non-negativity
invariant. -/
theorem claim4_refund_symmetry (env : Env) (s : Store) (uid : String)
    (b : ConsumedFrom) (hinit : s.initialized = true)
    (h0 : 0 ≤ (getUser s uid).freeUsed) (hp : 0 ≤ (getUser s uid).paidCredits)
    (hb : (consumeGenerationCredit env s uid).1.consumedFrom = some b) :
    (refundGenerationCredit env (consumeGenerationCredit env s uid).2 uid b).1 =
      snapshotFromValues (getUser s uid).freeUsed (getUser s uid).paidCredits ∧
    getUser (refundGenerationCredit env (consumeGenerationCredit env s uid).2 uid b).2 uid =
      getUser s uid := by
  have hmaxf : max 0 ((getUser s uid).freeUsed) = (getUser s uid).freeUsed := by omega
  have hmaxp : max 0 ((getUser s uid).paidCredits) = (getUser s uid).paidCredits := by omega
  by_cases hempty : max 0 (FREE_QUOTA_LIMIT - (getUser s uid).freeUsed) +
      (getUser s uid).paidCredits ≤ 0
  · simp [consumeGenerationCredit, ensureInitialized_of_true env hinit, hempty] at hb
  · by_cases hfree : 0 < max 0 (FREE_QUOTA_LIMIT - (getUser s uid).freeUsed)
    · have hb' : b = ConsumedFrom.free := by
        simp [consumeGenerationCredit, ensureInitialized_of_true env hinit,
          if_neg (not_le.mpr (not_le.mp fun hc => hempty hc)), hempty, hfree] at hb
        exact hb.symm
      subst hb'
      simp only [consumeGenerationCredit, ensureInitialized_of_true env hinit,
        if_neg hempty, if_pos hfree, refundGenerationCredit]
      rw [ensureInitialized_of_true env (by rw [setUser_flag]; exact hinit)]
      have h1 : max 0 ((getUser s uid).freeUsed + 1 - 1) = (getUser s uid).freeUsed := by
        omega
      constructor
      · simp [getUser_setUser, snapshotFromValues, QuotaSnapshot.mk.injEq, h1]
        omega
      · simp [getUser_setUser, h1, hmaxf]
    · have hb' : b = ConsumedFrom.paid := by
        simp [consumeGenerationCredit, ensureInitialized_of_true env hinit,
          hempty, hfree] at hb
        exact hb.symm
      subst hb'
      simp only [consumeGenerationCredit, ensureInitialized_of_true env hinit,
        if_neg hempty, if_neg hfree, refundGenerationCredit]
      rw [ensureInitialized_of_true env (by rw [setUser_flag]; exact hinit)]
      have h1 : (getUser s uid).paidCredits - 1 + 1 = (getUser s uid).paidCredits := by
        omega
      constructor
      · simp [getUser_setUser, snapshotFromValues, QuotaSnapshot.mk.injEq, h1]
        omega
      · simp [getUser_setUser, h1]

/-- C4 witness: consume then refund from the claim's concrete state
`freeUsed = 7`, `paidCredits = 3` restores the pre-consume snapshot. -/
theorem claim4_witness :
    (refundGenerationCredit env0
        (consumeGenerationCredit env0 (⟨[("u", ⟨7, 3⟩)], [], [], true⟩ : Store) "u").2
        "u" ConsumedFrom.free).1
      = snapshotFromValues 7 3 := by
  have h := claim4_refund_symmetry env0 (⟨[("u", ⟨7, 3⟩)], [], [], true⟩ : Store) "u"
    ConsumedFrom.free rfl (by decide) (by decide) (by decide)
  exact h.1

/-- C5: `usedCount` never exceeds `maxUses` in any state reachable from
the all-zero default; `redeemApply` leaves the state untouched and fails
with the "code exhausted" error (`兑换码已被使用`) when
`usedCount ≥ maxUses` (for an active code the user has not yet used,
the earlier checks of the script); and a fresh code with `maxUses = N`
allows exactly `N` successful redemptions across distinct users, the
`(N+1)`-th attempt failing. -/
theorem claim5_global_use_cap :
    (∀ (env : Env) (ops : List Op) (code : String) (c : CodeRecord),
       lookupA code (runOps env ops initStore).codes = some c →
       c.usedCount ≤ c.maxUses) ∧
    (∀ (env : Env) (s : Store) (uid rawCode code : String) (c : CodeRecord),
       s.initialized = true → normalizeCode rawCode = code → code ≠ "" →
       lookupA code s.codes = some c → c.active = true →
       code ∉ getUserCodes s uid → c.maxUses ≤ c.usedCount →
       redeemCodeForUser env s uid rawCode =
         ({ ok := false, error := some "兑换码已被使用",
            quota := snapshotFromValues (getUser s uid).freeUsed
              (getUser s uid).paidCredits }, s)) ∧
    (∀ (env : Env) (s : Store) (code : String) (cr : Int) (N : Nat)
       (uids : List String),
       s.initialized = true → normalizeCode code = code → code ≠ "" →
       lookupA code s.codes = some ⟨cr, (N : Int), ((0 : Nat) : Int), true⟩ →
       List.Nodup uids → (∀ uid ∈ uids, code ∉ getUserCodes s uid) →
       uids.length = N + 1 →
       (redeemAll env code uids s).1 = List.replicate N true ++ [false]) := by
  refine ⟨?_, ?_, ?_⟩
  · intro env ops code c h
    exact ((storeOk_runOps env ops initStore storeOk_initStore).2 code c h).2
  · intro env s uid rawCode code c hs hn hne hc ha hmem hused
    exact redeem_fail env uid rawCode code hs hn hne
      (by rw [hc, decide_eq_false hmem]; exact redeemScript_exhausted ha hused _)
  · intro env s code cr N uids hs hn hne hc hnodup hfresh hlen
    have h := redeemAll_count env code cr N uids 0 s hs hn hne hc hnodup hfresh
      (by omega) (by omega)
    simpa using h

/-- C5 witness: a fresh single-use code redeemed by two distinct users:
the first succeeds, the second fails. -/
theorem claim5_witness :
    (redeemAll env0 "C5"
        ["A", "B"]
        (⟨[], [("C5", ⟨5, ((1 : Nat) : Int), ((0 : Nat) : Int), true⟩)], [], true⟩ : Store)).1
      = List.replicate 1 true ++ [false] := by
  exact claim5_global_use_cap.2.2 env0
    (⟨[], [("C5", ⟨5, ((1 : Nat) : Int), ((0 : Nat) : Int), true⟩)], [], true⟩ : Store)
    "C5" 5 1 ["A", "B"] rfl (by decide) (by decide) (by decide) (by decide)
    (by decide) rfl

/-- C6: a (user, code) pair is redeemed at most once.  A successful
redemption records the pair in the user's redemption set; the pair then
persists across every later engine operation; while the code still
exists and is active, a repeat attempt by the same user fails with the
distinct "already used this code" error (`你已使用过该兑换码`) and
changes no stored state; and a different user who has not used the code
may still redeem it while `usedCount < maxUses`. -/
theorem claim6_single_use_per_user :
    (∀ (env : Env) (s : Store) (uid rawCode code : String) (c : CodeRecord),
       s.initialized = true → normalizeCode rawCode = code → code ≠ "" →
       lookupA code s.codes = some c → c.active = true →
       code ∉ getUserCodes s uid → c.usedCount < c.maxUses →
       code ∈ getUserCodes (redeemCodeForUser env s uid rawCode).2 uid) ∧
    (∀ (env : Env) (ops : List Op) (s : Store) (uid code : String),
       code ∈ getUserCodes s uid → code ∈ getUserCodes (runOps env ops s) uid) ∧
    (∀ (env : Env) (s : Store) (uid rawCode code : String) (c : CodeRecord),
       s.initialized = true → normalizeCode rawCode = code → code ≠ "" →
       lookupA code s.codes = some c → c.active = true →
       code ∈ getUserCodes s uid →
       redeemCodeForUser env s uid rawCode =
         ({ ok := false, error := some "你已使用过该兑换码",
            quota := snapshotFromValues (getUser s uid).freeUsed
              (getUser s uid).paidCredits }, s)) ∧
    (∀ (env : Env) (s : Store) (uidB rawCode code : String) (c : CodeRecord),
       s.initialized = true → normalizeCode rawCode = code → code ≠ "" →
       lookupA code s.codes = some c → c.active = true →
       code ∉ getUserCodes s uidB → c.usedCount < c.maxUses →
       (redeemCodeForUser env s uidB rawCode).1.ok = true) := by
  refine ⟨?_, ?_, ?_, ?_⟩
  · intro env s uid rawCode code c hs hn hne hc ha hmem hused
    rw [redeem_success env uid rawCode code hs hn hne hc ha hmem hused]
    simp only [getUserCodes, setUser_userCodes, lookupA_setA_self, Option.getD_some]
    exact mem_saddList_self code _
  · intro env ops s uid code h
    exact userCodes_mono_runOps env ops s h
  · intro env s uid rawCode code c hs hn hne hc ha hmem
    exact redeem_fail env uid rawCode code hs hn hne
      (by rw [hc, decide_eq_true hmem]; exact redeemScript_member ha _)
  · intro env s uidB rawCode code c hs hn hne hc ha hmem hused
    rw [redeem_success env uidB rawCode code hs hn hne hc ha hmem hused]

/-- C6 witness: user A has already redeemed the (still active, not yet
exhausted) code; A's repeat attempt fails with the "already used"
message and leaves the store unchanged. -/
theorem claim6_witness :
    redeemCodeForUser env0
        (⟨[("A", ⟨0, 5⟩)], [("C6", ⟨5, 2, 1, true⟩)], [("A", ["C6"])], true⟩ : Store)
        "A" "C6"
      = ({ ok := false, error := some "你已使用过该兑换码",
           quota := snapshotFromValues
             (getUser (⟨[("A", ⟨0, 5⟩)], [("C6", ⟨5, 2, 1, true⟩)], [("A", ["C6"])], true⟩ : Store) "A").freeUsed
             (getUser (⟨[("A", ⟨0, 5⟩)], [("C6", ⟨5, 2, 1, true⟩)], [("A", ["C6"])], true⟩ : Store) "A").paidCredits },
         (⟨[("A", ⟨0, 5⟩)], [("C6", ⟨5, 2, 1, true⟩)], [("A", ["C6"])], true⟩ : Store)) := by
  exact claim6_single_use_per_user.2.2.1 env0
    (⟨[("A", ⟨0, 5⟩)], [("C6", ⟨5, 2, 1, true⟩)], [("A", ["C6"])], true⟩ : Store)
    "A" "C6" "C6" ⟨5, 2, 1, true⟩ rfl (by decide) (by decide) (by decide) rfl (by decide)

/-- C7 counterexample: `getSnapshot` is not mutation-free as stated.  On
a process that has not yet initialized, with a seed code configured
(`REDEEM_CODES_5 = "C7SEED"`) and absent from the store, a single
`getQuotaSnapshot` call writes that code record into the store. -/
theorem claim7_counterexample :
    (getQuotaSnapshot (⟨some "C7SEED", none, none⟩ : Env) initStore "u").2.codes ≠
      initStore.codes := by decide

/-- C7 (amended): apart from the one-shot seed import triggered by the
first call of a process, `getQuotaSnapshot` performs no mutation: on an
initialized process it returns the derived snapshot together with the
unchanged store; repeated calls never change the store beyond the first
call; and a missing user is read as the fresh zero-balance account with
snapshot `{freeRemaining := 8, paidRemaining := 0, totalRemaining := 8}`. -/
theorem claim7_snapshot_purity :
    (∀ (env : Env) (s : Store) (uid : String), s.initialized = true →
       getQuotaSnapshot env s uid =
         (snapshotFromValues (getUser s uid).freeUsed (getUser s uid).paidCredits, s)) ∧
    (∀ (env : Env) (s : Store) (uid uid' : String),
       (getQuotaSnapshot env (getQuotaSnapshot env s uid).2 uid').2 =
         (getQuotaSnapshot env s uid).2) ∧
    (∀ (env : Env) (s : Store) (uid : String), lookupA uid s.users = none →
       (getQuotaSnapshot env s uid).1 = ⟨8, 0, 8⟩) := by
  refine ⟨?_, ?_, ?_⟩
  · intro env s uid hs
    exact getQuotaSnapshot_of_true env uid hs
  · intro env s uid uid'
    simp only [getQuotaSnapshot]
    exact ensureInitialized_idem env s
  · intro env s uid hnone
    have hu : getUser s uid = ⟨0, 0⟩ := by simp [getUser, hnone]
    simp only [getQuotaSnapshot, getUser_ensureInitialized, hu]
    decide

/-- C7 witness: on an initialized process the snapshot read leaves the
store untouched. -/
theorem claim7_witness :
    getQuotaSnapshot env0 (⟨[], [], [], true⟩ : Store) "u" =
      (snapshotFromValues (getUser (⟨[], [], [], true⟩ : Store) "u").freeUsed
         (getUser (⟨[], [], [], true⟩ : Store) "u").paidCredits,
       (⟨[], [], [], true⟩ : Store)) :=
  claim7_snapshot_purity.1 env0 (⟨[], [], [], true⟩ : Store) "u" rfl

/-- C8 counterexample: the empty-code path is not free of store effects
as stated: `redeemCodeForUser` runs `ensureInitialized` before the
emptiness check, so on a process's first call with a configured seed
code the store gains that code record even for a blank input. -/
theorem claim8_counterexample :
    (redeemCodeForUser (⟨some "C8SEED", none, none⟩ : Env) initStore "u" " ").2.codes ≠
      initStore.codes := by decide

/-- C8 (amended): for every raw code normalizing (trim + uppercase) to
the empty string, `redeemApply` fails immediately with the validation
error `兑换码不能为空` and the user's current snapshot, without running
the redeem script; on an initialized process (i.e. apart from the
one-shot seed import a first call triggers) all stored state is left
unchanged.  The snapshot itself is read from the store. -/
theorem claim8_empty_code_rejected (env : Env) (s : Store) (uid rawCode : String)
    (hs : s.initialized = true) (hn : normalizeCode rawCode = "") :
    redeemCodeForUser env s uid rawCode =
      ({ ok := false, error := some "兑换码不能为空",
         quota := snapshotFromValues (getUser s uid).freeUsed
           (getUser s uid).paidCredits }, s) :=
  redeem_empty env uid rawCode hs hn

/-- C8 witness: a whitespace-only code is rejected with the validation
error and the store (initialized, one user) is unchanged. -/
theorem claim8_witness :
    redeemCodeForUser env0 (⟨[("u", ⟨2, 1⟩)], [], [], true⟩ : Store) "u" "  " =
      ({ ok := false, error := some "兑换码不能为空",
         quota := snapshotFromValues
           (getUser (⟨[("u", ⟨2, 1⟩)], [], [], true⟩ : Store) "u").freeUsed
           (getUser (⟨[("u", ⟨2, 1⟩)], [], [], true⟩ : Store) "u").paidCredits },
       (⟨[("u", ⟨2, 1⟩)], [], [], true⟩ : Store)) :=
  claim8_empty_code_rejected env0 (⟨[("u", ⟨2, 1⟩)], [], [], true⟩ : Store) "u" "  "
    rfl (by decide)

/-- C9 counterexample: `grantPaidCredits` itself surfaces no validation
error for a non-positive credits argument and does not leave
`paidCredits` unchanged: with `credits = 0` on a fresh user it clamps
the grant to `max(1, credits) = 1` and applies it. -/
theorem claim9_counterexample :
    (grantPaidCredits env0 (⟨[], [], [], true⟩ : Store) "u" 0).1.paidRemaining = 1 ∧
    (getUser (grantPaidCredits env0 (⟨[], [], [], true⟩ : Store) "u" 0).2 "u").paidCredits
      = 1 := by decide

/-- C9 (amended): the validation of a non-positive credits argument
lives in the admin HTTP route, not in the core: the route rejects
`credits ≤ 0` with the specific message `credits 必须大于 0` before any
store access, leaving `paidCredits` unchanged, while `grantPaidCredits`
itself always applies a grant of `max 1 credits`. -/
theorem claim9_grant_validation :
    (∀ (env : Env) (s : Store) (uid : String) (credits : Int), credits ≤ 0 →
       adminGrantCreditsRoute env s uid credits =
         Except.error "credits 必须大于 0") ∧
    (∀ (env : Env) (s : Store) (uid : String) (credits : Int),
       s.initialized = true →
       (getUser (grantPaidCredits env s uid credits).2 uid).paidCredits =
         (getUser s uid).paidCredits + max 1 credits) := by
  refine ⟨?_, ?_⟩
  · intro env s uid credits h
    simp [adminGrantCreditsRoute, h]
  · intro env s uid credits hs
    simp [grantPaidCredits, ensureInitialized_of_true env hs, getUser_setUser]

/-- C9 witness: the route rejects a zero-credit grant with the
validation message. -/
theorem claim9_witness :
    adminGrantCreditsRoute env0 initStore "u" 0 =
      Except.error "credits 必须大于 0" :=
  claim9_grant_validation.1 env0 initStore "u" 0 (by norm_num)

/-- C10 counterexample: not all public operations are total over
malformed stored data: the consume script falls back to zero only for a
missing field, so a stored non-numeric `freeUsed` (here `"abc"`) makes
the Lua script throw instead of being read as zero. -/
theorem claim10_counterexample :
    consumeGenerationCreditRaw (some "abc") (some "3") =
      Except.error "attempt to perform arithmetic on a nil value" := rfl

/-- C10 (amended): `getSnapshot` is total over malformed stored data:
every counter field it reads is parsed with a zero fallback, so for any
raw stored hash values (missing or non-numeric included) it returns a
well-formed snapshot with non-negative `freeRemaining` and
`paidRemaining` and `totalRemaining = freeRemaining + paidRemaining`,
never throwing; the script-based mutating operations, by contrast, fall
back to zero only for missing fields. -/
theorem claim10_snapshot_total (freeUsedRaw paidCreditsRaw : Option String) :
    0 ≤ (getQuotaSnapshotFromHash freeUsedRaw paidCreditsRaw).freeRemaining ∧
    0 ≤ (getQuotaSnapshotFromHash freeUsedRaw paidCreditsRaw).paidRemaining ∧
    (getQuotaSnapshotFromHash freeUsedRaw paidCreditsRaw).totalRemaining =
      (getQuotaSnapshotFromHash freeUsedRaw paidCreditsRaw).freeRemaining +
        (getQuotaSnapshotFromHash freeUsedRaw paidCreditsRaw).paidRemaining :=
  ⟨le_max_left 0 _, le_max_left 0 _, rfl⟩
